import Mathlib

/-!
Verification of the document-AI pipeline against its specification.

The definitions below are a shallow embedding of the Python sources:

* `convertLinesToReadingOrder` embeds `_convert_lines_to_reading_order`
  (src/utils/ocr_engines.py, lines 225-257);
* `parseExtraction` embeds `parse_extraction`
  (src/utils/extractor_utils.py, lines 95-123; src/extractor.py has the
  same logic with extra prints);
* `parseReview` embeds `parse_review`
  (src/utils/reviewer_utils.py, lines 134-181);
* `createClassificationPromptMessages` and `classifyAndSuggestFields`
  embed src/utils/classifier_utils.py and src/classifier.py.

Python library primitives that the repository calls (`re.search` with a
fixed pattern, `json.loads`, PIL image decoding, the LLM endpoint) are
taken as explicit function parameters; theorems quantify over every
behaviour of those primitives, which only strengthens the statements.
Python `list.sort` is stable, and a stable sort's output is unique, so it
is embedded as `List.insertionSort` (stable). The float tolerance
`y_tolerance = median_height * 0.7` and the comparison
`abs(delta) > y_tolerance` are embedded exactly over the rationals by
clearing denominators: with `m2` denoting twice the median (an integer,
since the median of an integer list is an integer or a half-integer),
`abs(delta) > 0.7 * median` holds iff `20 * abs(delta) > 7 * m2`.
-/

namespace DocAI

/-- A standardized OCR line: `{'text': str, 'bbox': [xmin, ymin, xmax, ymax]}`
(the `confidence` entry is never read by the reading-order conversion and is
omitted). A malformed bounding box is any list whose length is not 4. -/
structure Line where
  text : String
  bbox : List Int
deriving Repr, DecidableEq

/-- `line['bbox'][1]` (with the `line.get('bbox', [0,0,0,0])` default used by
the sort keys in the source). -/
def yKey (l : Line) : Int := l.bbox.getD 1 0

/-- `line['bbox'][0]` (with the same default). -/
def xKey (l : Line) : Int := l.bbox.getD 0 0

/-- The heights loop of `_convert_lines_to_reading_order` (lines 229-234).
Note the slip in the source: line 232 reads
`if len(bbox) == 4: height = bbox[3] - bbox[1];` followed by a *separate*
statement `if height > 0: heights.append(height)`, so for a box whose length
is not 4 the `height` variable keeps its value from the previous iteration
(and raises `NameError`, caught by `except: continue`, when no previous
iteration set it). The accumulator `prev` models that leaked variable. -/
def collectHeights : List Line → Option Int → List Int
  | [], _ => []
  | l :: ls, prev =>
    match l.bbox with
    | [_, y0, _, y1] =>
      let h := y1 - y0
      if h > 0 then h :: collectHeights ls (some h) else collectHeights ls (some h)
    | _ =>
      match prev with
      | some h => if h > 0 then h :: collectHeights ls (some h) else collectHeights ls (some h)
      | none => collectHeights ls none

/-- The `heights` list collected by `_convert_lines_to_reading_order`. -/
def lineHeights (ls : List Line) : List Int := collectHeights ls none

/-- Twice `statistics.median`, over the integers. `statistics.median` sorts
the data and returns the middle element (odd length) or the mean of the two
middle elements (even length); the `except: median_height = 10` fallback of
line 240 (reachable only for empty data) becomes `20`. -/
def medianDoubled (xs : List Int) : Int :=
  if (List.insertionSort (· ≤ ·) xs).length = 0 then 20
  else if (List.insertionSort (· ≤ ·) xs).length % 2 = 1 then
    2 * (List.insertionSort (· ≤ ·) xs).getD
      ((List.insertionSort (· ≤ ·) xs).length / 2) 0
  else
    (List.insertionSort (· ≤ ·) xs).getD
        ((List.insertionSort (· ≤ ·) xs).length / 2 - 1) 0 +
      (List.insertionSort (· ≤ ·) xs).getD
        ((List.insertionSort (· ≤ ·) xs).length / 2) 0

/-- Sort key of the no-valid-heights fallback (line 237):
`(bbox[1], bbox[0])` lexicographically. -/
def yxRel (a b : Line) : Prop :=
  yKey a < yKey b ∨ (yKey a = yKey b ∧ xKey a ≤ xKey b)

instance : DecidableRel yxRel := fun _a _b =>
  inferInstanceAs (Decidable (_ ∨ _ ∧ _))

/-- Sort key of the clustered path (line 243): `bbox[1]`. -/
def yRel (a b : Line) : Prop := yKey a ≤ yKey b

instance : DecidableRel yRel := fun _a _b => inferInstanceAs (Decidable (_ ≤ _))

instance : IsTotal Line yRel := ⟨fun a b => Int.le_total (yKey a) (yKey b)⟩

instance : IsTrans Line yRel := ⟨fun _ _ _ h1 h2 => le_trans h1 h2⟩

/-- Sort key used when flushing a band (lines 251/256): `bbox[0]`. -/
def xRel (a b : Line) : Prop := xKey a ≤ xKey b

instance : DecidableRel xRel := fun _a _b => inferInstanceAs (Decidable (_ ≤ _))

instance : IsTotal Line xRel := ⟨fun a b => Int.le_total (xKey a) (xKey b)⟩

instance : IsTrans Line xRel := ⟨fun _ _ _ h1 h2 => le_trans h1 h2⟩

/-- State of the greedy clustering loop: finished bands, the current band
(`current_line_boxes`), and `current_line_ref_y`. -/
structure ClusterState where
  bands : List (List Line)
  cur : List Line
  refY : Int
deriving Repr, DecidableEq

/-- One iteration of the clustering loop (lines 247-255). `m2` is twice the
median height, so `20 * |top - refY| > 7 * m2` is exactly
`abs(box_top - current_line_ref_y) > median_height * 0.7`. A box whose bbox
has fewer than two entries raises `IndexError` and is skipped
(`except: continue`). -/
def clusterStep (m2 : Int) (s : ClusterState) (box : Line) : ClusterState :=
  if box.bbox.length < 2 then s
  else if s.cur.isEmpty then { s with cur := [box], refY := yKey box }
  else if 20 * ((yKey box - s.refY).natAbs : Int) > 7 * m2 then
    { bands := s.bands ++ [s.cur], cur := [box], refY := yKey box }
  else
    { s with cur := s.cur ++ [box], refY := min s.refY (yKey box) }

/-- `current_line_boxes.sort(key=lambda b: b['bbox'][0])` followed by
`" ".join([b.get('text', '') for b in current_line_boxes])`. -/
def flushBand (band : List Line) : String :=
  String.intercalate " " ((List.insertionSort xRel band).map Line.text)

/-- The full clustering loop plus the final flush (lines 244-256),
returning the bands in reading order. -/
def clusterBands (m2 : Int) (ls : List Line) : List (List Line) :=
  if (ls.foldl (clusterStep m2) ⟨[], [], -1⟩).cur.isEmpty then
    (ls.foldl (clusterStep m2) ⟨[], [], -1⟩).bands
  else
    (ls.foldl (clusterStep m2) ⟨[], [], -1⟩).bands ++
      [(ls.foldl (clusterStep m2) ⟨[], [], -1⟩).cur]

/-- `_convert_lines_to_reading_order(line_data)`
(src/utils/ocr_engines.py, lines 225-257). -/
def convertLinesToReadingOrder (ls : List Line) : String :=
  if ls.isEmpty then ""
  else if (lineHeights ls).isEmpty then
    String.intercalate "\n" ((List.insertionSort yxRel ls).map Line.text)
  else
    String.intercalate "\n"
      ((clusterBands (medianDoubled (lineHeights ls))
        (List.insertionSort yRel ls)).map flushBand)

/-- The reading-order bands underlying `convertLinesToReadingOrder`: each
input line of the fallback path forms its own band; otherwise the greedy
clusters. -/
def readingBands (ls : List Line) : List (List Line) :=
  if ls.isEmpty then []
  else if (lineHeights ls).isEmpty then
    (List.insertionSort yxRel ls).map (fun l => [l])
  else clusterBands (medianDoubled (lineHeights ls)) (List.insertionSort yRel ls)

end DocAI

namespace DocAI

/-- C1 counterexample input: a single line whose box has `ymax = ymin`. -/
def degenerateSingleton : List Line := [⟨"Total: $10", [0, 5, 40, 5]⟩]

/-- C1: the claim states that reconstruction of a single zero-area box
returns the empty string (the degenerate line being skipped). It does not:
the zero-height box contributes no height, so the no-valid-heights fallback
of lines 235-238 runs and returns the line's text. -/
theorem claim_C1_counterexample :
    convertLinesToReadingOrder degenerateSingleton = "Total: $10" ∧
      convertLinesToReadingOrder degenerateSingleton ≠ "" := by
  constructor
  · rfl
  · decide

/-- C1 (amended): reconstruction of the empty sequence returns the empty
string; a single line with a zero-area box (`ymax = ymin`) is skipped only
from the height statistics, so the simple-sort fallback returns its text
(the empty string exactly when the text is empty). -/
theorem claim_C1_amended :
    convertLinesToReadingOrder [] = "" ∧
      ∀ (t : String) (x0 y0 x1 : Int),
        convertLinesToReadingOrder [⟨t, [x0, y0, x1, y0]⟩] = t := by
  refine ⟨rfl, fun t x0 y0 x1 => ?_⟩
  simp [convertLinesToReadingOrder, lineHeights, collectHeights,
    List.insertionSort, String.intercalate, String.intercalate.go]

theorem yKey_mk (t : String) (a b c d : Int) : yKey ⟨t, [a, b, c, d]⟩ = b := rfl

theorem xKey_mk (t : String) (a b c d : Int) : xKey ⟨t, [a, b, c, d]⟩ = a := rfl

theorem intercalate_single (s a : String) : String.intercalate s [a] = a := rfl

theorem intercalate_pair (s a b : String) :
    String.intercalate s [a, b] = a ++ s ++ b := rfl

theorem flushBand_singleton (l : Line) : flushBand [l] = l.text := rfl

theorem flushBand_pair (l1 l2 : Line) :
    flushBand [l1, l2] =
      if xRel l1 l2 then l1.text ++ " " ++ l2.text
      else l2.text ++ " " ++ l1.text := by
  by_cases h : xRel l1 l2 <;>
    simp [flushBand, List.insertionSort, List.orderedInsert, h,
      intercalate_pair]

theorem medianDoubled_pair (a b : Int) : medianDoubled [a, b] = a + b := by
  by_cases h : a ≤ b
  · simp [medianDoubled, List.insertionSort, List.orderedInsert, h]
  · simp only [medianDoubled, List.insertionSort, List.orderedInsert,
      if_neg h]
    simp
    omega

/-- A box whose bounding box has at least two entries and is processed while
the current band is empty opens a fresh band. -/
theorem clusterStep_first (m2 : Int) (bands : List (List Line)) (ref : Int)
    (box : Line) (h2 : 2 ≤ box.bbox.length) :
    clusterStep m2 ⟨bands, [], ref⟩ box = ⟨bands, [box], yKey box⟩ := by
  simp [clusterStep, Nat.not_lt.mpr h2]

/-- Joining the current band: the gap from the running reference does not
exceed the tolerance, so the box is appended and (for `ref ≤ ymin`) the
running minimum is unchanged. -/
theorem clusterStep_join (m2 : Int) (bands : List (List Line))
    (cur : List Line) (ref : Int) (box : Line) (hcur : cur ≠ [])
    (h2 : 2 ≤ box.bbox.length) (hge : ref ≤ yKey box)
    (hle : ¬ 20 * (yKey box - ref) > 7 * m2) :
    clusterStep m2 ⟨bands, cur, ref⟩ box = ⟨bands, cur ++ [box], ref⟩ := by
  have habs : ((yKey box - ref).natAbs : Int) = yKey box - ref :=
    Int.natAbs_of_nonneg (by omega)
  have hmin : min ref (yKey box) = ref := min_eq_left hge
  simp [clusterStep, Nat.not_lt.mpr h2, List.isEmpty_iff, hcur, habs, hle,
    hmin]

/-- Starting a new band: the gap exceeds the tolerance, so the current band
is flushed and the box becomes the new band with its own reference. -/
theorem clusterStep_new (m2 : Int) (bands : List (List Line))
    (cur : List Line) (ref : Int) (box : Line) (hcur : cur ≠ [])
    (h2 : 2 ≤ box.bbox.length) (hge : ref ≤ yKey box)
    (hgt : 20 * (yKey box - ref) > 7 * m2) :
    clusterStep m2 ⟨bands, cur, ref⟩ box =
      ⟨bands ++ [cur], [box], yKey box⟩ := by
  have habs : ((yKey box - ref).natAbs : Int) = yKey box - ref :=
    Int.natAbs_of_nonneg (by omega)
  simp [clusterStep, Nat.not_lt.mpr h2, List.isEmpty_iff, hcur, habs, hgt]

/-- Folding the clustering step over boxes that all stay within tolerance of
the running reference extends the current band and leaves the reference
unchanged. -/
theorem foldl_clusterStep_join (m2 : Int) (A : List Line)
    (bands : List (List Line)) (cur : List Line) (ref : Int)
    (hcur : cur ≠ [])
    (hA : ∀ a ∈ A, 2 ≤ a.bbox.length ∧ ref ≤ yKey a ∧
      ¬ 20 * (yKey a - ref) > 7 * m2) :
    A.foldl (clusterStep m2) ⟨bands, cur, ref⟩ = ⟨bands, cur ++ A, ref⟩ := by
  induction A generalizing cur with
  | nil => simp
  | cons a A ih =>
    obtain ⟨h2, hge, hle⟩ := hA a (by simp)
    rw [List.foldl_cons, clusterStep_join m2 bands cur ref a hcur h2 hge hle,
      ih (cur ++ [a]) (by simp) (fun x hx => hA x (by simp [hx]))]
    simp

/-- The clustering loop on two tolerance-coherent groups, the second strictly
below the first by more than the tolerance, produces exactly two bands. -/
theorem clusterBands_two_rows (m2 : Int) (a0 b0 : Line) (A B : List Line)
    (ha0 : 2 ≤ a0.bbox.length) (hb0 : 2 ≤ b0.bbox.length)
    (hA : ∀ a ∈ A, 2 ≤ a.bbox.length ∧ yKey a0 ≤ yKey a ∧
      ¬ 20 * (yKey a - yKey a0) > 7 * m2)
    (hgap : yKey a0 ≤ yKey b0 ∧ 20 * (yKey b0 - yKey a0) > 7 * m2)
    (hB : ∀ b ∈ B, 2 ≤ b.bbox.length ∧ yKey b0 ≤ yKey b ∧
      ¬ 20 * (yKey b - yKey b0) > 7 * m2) :
    clusterBands m2 ((a0 :: A) ++ (b0 :: B)) = [a0 :: A, b0 :: B] := by
  have h1 : List.foldl (clusterStep m2) ⟨[], [], -1⟩ (a0 :: A) =
      ⟨[], a0 :: A, yKey a0⟩ := by
    rw [List.foldl_cons, clusterStep_first m2 [] (-1) a0 ha0,
      foldl_clusterStep_join m2 A [] [a0] (yKey a0) (by simp) hA]
    simp
  have h2 : List.foldl (clusterStep m2) ⟨[], [], -1⟩
      ((a0 :: A) ++ (b0 :: B)) = ⟨[a0 :: A], b0 :: B, yKey b0⟩ := by
    rw [List.foldl_append, h1, List.foldl_cons,
      clusterStep_new m2 [] (a0 :: A) (yKey a0) b0 (by simp) hb0 hgap.1
        hgap.2]
    simp only [List.nil_append]
    rw [foldl_clusterStep_join m2 B [a0 :: A] [b0] (yKey b0) (by simp) hB]
    simp
  unfold clusterBands
  rw [h2]
  simp

/-- C4: with `y_tolerance = 0.7 × median(heights)`, after the `ymin` sort a
line starts a new band iff its `ymin` differs from the band's running
minimum by more than the tolerance, and otherwise joins the band with the
running minimum updated to the minimum of the two (all comparisons stated
with denominators cleared: `20·|Δ| > 7·(2·median)` is `|Δ| > 0.7·median`).
In particular, for two lines of positive heights `h1`, `h2` (median
`(h1+h2)/2`, doubled `h1+h2`), a `ymin` gap strictly below the tolerance
yields one band (texts joined left-to-right by `xmin`), and a gap strictly
above it yields two bands. -/
theorem claim_C4 (t1 t2 : String) (x1 y1 X1 Y1 x2 y2 X2 Y2 : Int)
    (hh1 : 0 < Y1 - y1) (hh2 : 0 < Y2 - y2) (hy : y1 ≤ y2) :
    (∀ (m2 : Int) (bands : List (List Line)) (cur : List Line) (ref : Int)
        (box : Line), cur ≠ [] → 2 ≤ box.bbox.length →
        clusterStep m2 ⟨bands, cur, ref⟩ box =
          (if 20 * ((yKey box - ref).natAbs : Int) > 7 * m2 then
            ⟨bands ++ [cur], [box], yKey box⟩
          else ⟨bands, cur ++ [box], min ref (yKey box)⟩)) ∧
    (20 * (y2 - y1) < 7 * ((Y1 - y1) + (Y2 - y2)) →
      convertLinesToReadingOrder
          [⟨t1, [x1, y1, X1, Y1]⟩, ⟨t2, [x2, y2, X2, Y2]⟩] =
        (if x2 < x1 then t2 ++ " " ++ t1 else t1 ++ " " ++ t2)) ∧
    (20 * (y2 - y1) > 7 * ((Y1 - y1) + (Y2 - y2)) →
      convertLinesToReadingOrder
          [⟨t1, [x1, y1, X1, Y1]⟩, ⟨t2, [x2, y2, X2, Y2]⟩] =
        t1 ++ "\n" ++ t2) := by
  have hkey1 : yKey ⟨t1, [x1, y1, X1, Y1]⟩ = y1 := rfl
  have hkey2 : yKey ⟨t2, [x2, y2, X2, Y2]⟩ = y2 := rfl
  have hheights :
      lineHeights [⟨t1, [x1, y1, X1, Y1]⟩, ⟨t2, [x2, y2, X2, Y2]⟩] =
        [Y1 - y1, Y2 - y2] := by
    simp [lineHeights, collectHeights, hh1, hh2]
  have hmedian :
      medianDoubled
          (lineHeights [⟨t1, [x1, y1, X1, Y1]⟩, ⟨t2, [x2, y2, X2, Y2]⟩]) =
        (Y1 - y1) + (Y2 - y2) := by
    rw [hheights, medianDoubled_pair]
  have hsort :
      List.insertionSort yRel
          [⟨t1, [x1, y1, X1, Y1]⟩, ⟨t2, [x2, y2, X2, Y2]⟩] =
        [⟨t1, [x1, y1, X1, Y1]⟩, ⟨t2, [x2, y2, X2, Y2]⟩] := by
    simp [List.insertionSort, List.orderedInsert, yRel, hkey1, hkey2, hy]
  have hne :
      ¬ (lineHeights
          [⟨t1, [x1, y1, X1, Y1]⟩, ⟨t2, [x2, y2, X2, Y2]⟩]).isEmpty = true := by
    rw [hheights]; simp
  have hconv :
      convertLinesToReadingOrder
          [⟨t1, [x1, y1, X1, Y1]⟩, ⟨t2, [x2, y2, X2, Y2]⟩] =
        String.intercalate "\n"
          ((clusterBands ((Y1 - y1) + (Y2 - y2))
            [⟨t1, [x1, y1, X1, Y1]⟩, ⟨t2, [x2, y2, X2, Y2]⟩]).map
              flushBand) := by
    simp only [convertLinesToReadingOrder]
    rw [if_neg (by simp), if_neg hne, hmedian, hsort]
  refine ⟨?_, ?_, ?_⟩
  · intro m2 bands cur ref box hcur h2
    by_cases h : 20 * ((yKey box - ref).natAbs : Int) > 7 * m2 <;>
      simp [clusterStep, Nat.not_lt.mpr h2, List.isEmpty_iff, hcur, h]
  · intro hlt
    have hcluster :
        clusterBands ((Y1 - y1) + (Y2 - y2))
            [⟨t1, [x1, y1, X1, Y1]⟩, ⟨t2, [x2, y2, X2, Y2]⟩] =
          [[⟨t1, [x1, y1, X1, Y1]⟩, ⟨t2, [x2, y2, X2, Y2]⟩]] := by
      unfold clusterBands
      rw [List.foldl_cons,
        clusterStep_first _ [] (-1) ⟨t1, [x1, y1, X1, Y1]⟩ (by simp),
        List.foldl_cons,
        clusterStep_join _ [] [⟨t1, [x1, y1, X1, Y1]⟩]
          (yKey ⟨t1, [x1, y1, X1, Y1]⟩) ⟨t2, [x2, y2, X2, Y2]⟩ (by simp)
          (by simp) (by rw [hkey1, hkey2]; exact hy)
          (by rw [hkey1, hkey2]; omega)]
      simp
    rw [hconv, hcluster]
    simp only [List.map_cons, List.map_nil, intercalate_single,
      flushBand_pair]
    by_cases hx : x2 < x1
    · have hxr : ¬ xRel (⟨t1, [x1, y1, X1, Y1]⟩ : Line)
          ⟨t2, [x2, y2, X2, Y2]⟩ := by
        simp only [xRel, xKey_mk]
        omega
      rw [if_pos hx, if_neg hxr]
    · have hxr : xRel (⟨t1, [x1, y1, X1, Y1]⟩ : Line)
          ⟨t2, [x2, y2, X2, Y2]⟩ := by
        simp only [xRel, xKey_mk]
        omega
      rw [if_neg hx, if_pos hxr]
  · intro hgt
    have hcluster :
        clusterBands ((Y1 - y1) + (Y2 - y2))
            [⟨t1, [x1, y1, X1, Y1]⟩, ⟨t2, [x2, y2, X2, Y2]⟩] =
          [[⟨t1, [x1, y1, X1, Y1]⟩], [⟨t2, [x2, y2, X2, Y2]⟩]] := by
      unfold clusterBands
      rw [List.foldl_cons,
        clusterStep_first _ [] (-1) ⟨t1, [x1, y1, X1, Y1]⟩ (by simp),
        List.foldl_cons,
        clusterStep_new _ [] [⟨t1, [x1, y1, X1, Y1]⟩]
          (yKey ⟨t1, [x1, y1, X1, Y1]⟩) ⟨t2, [x2, y2, X2, Y2]⟩ (by simp)
          (by simp) (by rw [hkey1, hkey2]; exact hy)
          (by rw [hkey1, hkey2]; omega)]
      simp
    rw [hconv, hcluster]
    simp only [List.map_cons, List.map_nil, flushBand_singleton,
      intercalate_pair]

/-- The clustering loop never loses or duplicates a box: at every point the
flattened finished bands followed by the current band list exactly the
processed prefix, provided no box is skipped for a too-short bounding box. -/
theorem foldl_clusterStep_flatten (m2 : Int) (L : List Line)
    (h4 : ∀ l ∈ L, 2 ≤ l.bbox.length) (s : ClusterState) :
    (L.foldl (clusterStep m2) s).bands.flatten ++
        (L.foldl (clusterStep m2) s).cur =
      s.bands.flatten ++ s.cur ++ L := by
  induction L generalizing s with
  | nil => simp
  | cons box L ih =>
    have h2 := h4 box (by simp)
    have hrest : ∀ l ∈ L, 2 ≤ l.bbox.length := fun l hl => h4 l (by simp [hl])
    rw [List.foldl_cons, ih hrest]
    rcases s with ⟨bands, cur, ref⟩
    unfold clusterStep
    rw [if_neg (Nat.not_lt.mpr h2)]
    by_cases hcur : cur.isEmpty
    · rw [if_pos hcur]
      simp [List.isEmpty_iff.mp hcur]
    · rw [if_neg hcur]
      by_cases hgap : 20 * ((yKey box - ref).natAbs : Int) > 7 * m2
      · rw [if_pos hgap]
        simp
      · rw [if_neg hgap]
        simp

/-- The bands produced by the clustering loop flatten back to the input list
when every bounding box has at least two coordinates. -/
theorem clusterBands_flatten (m2 : Int) (L : List Line)
    (h4 : ∀ l ∈ L, 2 ≤ l.bbox.length) :
    (clusterBands m2 L).flatten = L := by
  unfold clusterBands
  have h := foldl_clusterStep_flatten m2 L h4 ⟨[], [], -1⟩
  by_cases hcur : (L.foldl (clusterStep m2) ⟨[], [], -1⟩).cur.isEmpty
  · have hc : (L.foldl (clusterStep m2) ⟨[], [], -1⟩).cur = [] :=
      List.isEmpty_iff.mp hcur
    rw [if_pos hcur]
    simpa [hc] using h
  · rw [if_neg hcur, List.flatten_append]
    simpa using h

/-- C10: under well-formed (length-4) bounding boxes, the output is exactly
the reading bands rendered with single spaces inside a band and newlines
between bands, and the multiset of the texts across all bands is a
permutation of the input texts — nothing dropped, nothing duplicated, in
both the clustered path and the no-valid-heights fallback path. -/
theorem claim_C10 (ls : List Line) (h4 : ∀ l ∈ ls, l.bbox.length = 4) :
    convertLinesToReadingOrder ls =
        String.intercalate "\n" ((readingBands ls).map flushBand) ∧
      ((readingBands ls).flatten.map Line.text).Perm (ls.map Line.text) := by
  have h2 : ∀ l ∈ ls, 2 ≤ l.bbox.length := fun l hl => by
    rw [h4 l hl]; omega
  by_cases hempty : ls.isEmpty
  · have hnil : ls = [] := List.isEmpty_iff.mp hempty
    subst hnil
    exact ⟨rfl, by decide⟩
  · by_cases hh : (lineHeights ls).isEmpty
    · constructor
      · simp only [convertLinesToReadingOrder, readingBands, hempty, hh,
          if_neg, if_pos, Bool.false_eq_true, if_false, if_true,
          List.map_map]
        rfl
      · simp only [readingBands, hempty, Bool.false_eq_true, if_false, hh,
          if_true]
        have hj : ((List.insertionSort yxRel ls).map fun l => [l]).flatten =
            List.insertionSort yxRel ls := by
          induction List.insertionSort yxRel ls with
          | nil => simp
          | cons a as ih => simp [ih]
        rw [hj]
        exact (List.perm_insertionSort yxRel ls).map Line.text
    · constructor
      · simp only [convertLinesToReadingOrder, readingBands, hempty, hh,
          Bool.false_eq_true, if_false]
      · simp only [readingBands, hempty, hh, Bool.false_eq_true, if_false]
        rw [clusterBands_flatten _ _
          (fun l hl =>
            h2 l ((List.perm_insertionSort yRel ls).subset hl))]
        exact (List.perm_insertionSort yRel ls).map Line.text

/-- C10 witness: a three-line fixture with two rows; every text appears
exactly once in the band decomposition, and the rendered output matches. -/
theorem claim_C10_witness :
    convertLinesToReadingOrder
        [⟨"b", [20, 2, 30, 12]⟩, ⟨"c", [0, 30, 10, 40]⟩,
          ⟨"a", [0, 0, 10, 10]⟩] =
      String.intercalate "\n"
        ((readingBands
          [⟨"b", [20, 2, 30, 12]⟩, ⟨"c", [0, 30, 10, 40]⟩,
            ⟨"a", [0, 0, 10, 10]⟩]).map flushBand) ∧
    ((readingBands
        [⟨"b", [20, 2, 30, 12]⟩, ⟨"c", [0, 30, 10, 40]⟩,
          ⟨"a", [0, 0, 10, 10]⟩]).flatten.map Line.text).Perm
      (["b", "c", "a"] : List String) :=
  claim_C10
    [⟨"b", [20, 2, 30, 12]⟩, ⟨"c", [0, 30, 10, 40]⟩, ⟨"a", [0, 0, 10, 10]⟩]
    (by decide)

/-- C4 witness: heights 10 and 10 give a doubled median of 20 and tolerance
7; a `ymin` gap of 5 merges the two lines into one band, a gap of 8 splits
them. -/
theorem claim_C4_witness :
    convertLinesToReadingOrder
        [⟨"a", [0, 0, 30, 10]⟩, ⟨"b", [5, 5, 35, 15]⟩] = "a b" ∧
      convertLinesToReadingOrder
        [⟨"a", [0, 0, 30, 10]⟩, ⟨"b", [5, 8, 35, 18]⟩] = "a\nb" := by
  constructor
  · have h := claim_C4 "a" "b" 0 0 30 10 5 5 35 15 (by decide) (by decide)
      (by decide)
    rw [h.2.1 (by decide)]
    decide
  · have h := claim_C4 "a" "b" 0 0 30 10 5 8 35 18 (by decide) (by decide)
      (by decide)
    rw [h.2.2 (by decide)]
    decide

/-- The `TextLine` invariant of the specification: a four-entry bounding box
with `xmin < xmax` and `ymin < ymax`. -/
def WellFormed (l : Line) : Prop :=
  l.bbox.length = 4 ∧ xKey l < l.bbox.getD 2 0 ∧ yKey l < l.bbox.getD 3 0

instance (l : Line) : Decidable (WellFormed l) :=
  inferInstanceAs (Decidable (_ ∧ _ ∧ _))

/-- `bbox[3] - bbox[1]`, the height used by the statistics of the
reconstructor. -/
def heightOf (l : Line) : Int := l.bbox.getD 3 0 - yKey l

theorem WellFormed.bbox_eq {l : Line} (h : WellFormed l) :
    ∃ a b c d, l.bbox = [a, b, c, d] ∧ a < c ∧ b < d := by
  obtain ⟨hlen, hx, hy⟩ := h
  match hb : l.bbox with
  | [a, b, c, d] =>
    refine ⟨a, b, c, d, rfl, ?_, ?_⟩
    · simpa [xKey, hb] using hx
    · simpa [yKey, hb] using hy
  | [] | [_] | [_, _] | [_, _, _] => simp [hb] at hlen
  | _ :: _ :: _ :: _ :: _ :: _ => simp [hb] at hlen

theorem WellFormed.height_pos {l : Line} (h : WellFormed l) :
    0 < heightOf l := by
  obtain ⟨a, b, c, d, hb, _, hbd⟩ := h.bbox_eq
  simp [heightOf, yKey, hb]
  omega

theorem WellFormed.length_ge_two {l : Line} (h : WellFormed l) :
    2 ≤ l.bbox.length := by
  rw [h.1]; omega

/-- On well-formed lines the heights loop collects exactly the heights, in
order, independently of the leaked `height` variable. -/
theorem collectHeights_wf :
    ∀ (ls : List Line), (∀ l ∈ ls, WellFormed l) → ∀ (prev : Option Int),
      collectHeights ls prev = ls.map heightOf
  | [], _, _ => rfl
  | l :: ls, h, prev => by
    obtain ⟨a, b, c, d, hb, _, hbd⟩ := (h l (by simp)).bbox_eq
    have hrest := collectHeights_wf ls (fun x hx => h x (by simp [hx]))
    have hh : heightOf l = d - b := by simp [heightOf, yKey, hb]
    simp only [collectHeights, hb, List.map_cons, hh]
    rw [if_pos (by omega)]
    rw [hrest]

theorem lineHeights_wf (ls : List Line) (h : ∀ l ∈ ls, WellFormed l) :
    lineHeights ls = ls.map heightOf :=
  collectHeights_wf ls h none

/-- `medianDoubled` only depends on the multiset of its input. -/
theorem medianDoubled_congr (xs ys : List Int) (h : xs.Perm ys) :
    medianDoubled xs = medianDoubled ys := by
  have hsorteq : List.insertionSort (· ≤ ·) xs =
      List.insertionSort (· ≤ ·) ys :=
    List.eq_of_perm_of_sorted
      ((List.perm_insertionSort _ xs).trans
        (h.trans (List.perm_insertionSort _ ys).symm))
      (List.sorted_insertionSort _ xs) (List.sorted_insertionSort _ ys)
  unfold medianDoubled
  rw [hsorteq]

theorem getD_mem : ∀ (l : List Int) (i : Nat) (d : Int), i < l.length →
    l.getD i d ∈ l := by
  intro l i d h
  rw [List.getD_eq_getElem l d h]
  exact List.getElem_mem h

/-- The doubled median of a nonempty list of positive integers is
positive. -/
theorem medianDoubled_pos (xs : List Int) (hne : xs ≠ [])
    (hpos : ∀ x ∈ xs, 0 < x) : 0 < medianDoubled xs := by
  have hlen : (List.insertionSort (· ≤ ·) xs).length = xs.length :=
    List.length_insertionSort _ xs
  have hmem : ∀ x ∈ List.insertionSort (· ≤ ·) xs, 0 < x := fun x hx =>
    hpos x ((List.perm_insertionSort _ xs).subset hx)
  have hn : 0 < xs.length := List.length_pos.mpr hne
  unfold medianDoubled
  rw [hlen, if_neg (by omega)]
  by_cases hodd : xs.length % 2 = 1
  · rw [if_pos hodd]
    have := hmem _ (getD_mem _ (xs.length / 2) 0 (by rw [hlen]; omega))
    omega
  · rw [if_neg hodd]
    have h1 := hmem _ (getD_mem _ (xs.length / 2 - 1) 0 (by rw [hlen]; omega))
    have h2 := hmem _ (getD_mem _ (xs.length / 2) 0 (by rw [hlen]; omega))
    omega

instance : IsAntisymm Line (fun a b => xKey a < xKey b) :=
  ⟨fun _a _b h1 h2 => absurd (lt_trans h1 h2) (lt_irrefl _)⟩

theorem pairwise_x_strict {l : List Line} (hs : l.Sorted xRel)
    (hd : l.Pairwise fun a b => xKey a ≠ xKey b) :
    l.Pairwise fun a b => xKey a < xKey b :=
  (hs.and hd).imp fun h => lt_of_le_of_ne h.1 h.2

/-- Two lists that are permutations of each other and carry pairwise
distinct `xmin` keys have the same `xmin` sort. -/
theorem insertionSortX_eq_of_perm (A B : List Line) (h : A.Perm B)
    (hdist : B.Pairwise fun a b => xKey a ≠ xKey b) :
    List.insertionSort xRel A = List.insertionSort xRel B := by
  have hsymm : ∀ {x y : Line}, xKey x ≠ xKey y → xKey y ≠ xKey x :=
    fun hxy => hxy.symm
  have hdistA : A.Pairwise fun a b => xKey a ≠ xKey b :=
    (List.Perm.pairwise_iff hsymm h).mpr hdist
  have hdistSA : (List.insertionSort xRel A).Pairwise
      fun a b => xKey a ≠ xKey b :=
    (List.Perm.pairwise_iff hsymm (List.perm_insertionSort xRel A)).mpr hdistA
  have hdistSB : (List.insertionSort xRel B).Pairwise
      fun a b => xKey a ≠ xKey b :=
    (List.Perm.pairwise_iff hsymm (List.perm_insertionSort xRel B)).mpr hdist
  exact List.eq_of_perm_of_sorted
    (r := fun a b : Line => xKey a < xKey b)
    ((List.perm_insertionSort xRel A).trans
      (h.trans (List.perm_insertionSort xRel B).symm))
    (pairwise_x_strict (List.sorted_insertionSort xRel A) hdistSA)
    (pairwise_x_strict (List.sorted_insertionSort xRel B) hdistSB)

/-- In a list sorted by `r`, a predicate that propagates from any element to
the elements before it is decided by a prefix: `takeWhile` is `filter`. -/
theorem takeWhile_eq_filter_of_front {α : Type} (p : α → Bool) :
    ∀ (l : List α) (r : α → α → Prop), l.Pairwise r →
      (∀ a ∈ l, ∀ b ∈ l, r a b → p b = true → p a = true) →
      l.takeWhile p = l.filter p ∧
        l.dropWhile p = l.filter (fun x => !p x)
  | [], _, _, _ => ⟨rfl, rfl⟩
  | x :: xs, r, hpair, hcond => by
    have hx : ∀ b ∈ xs, r x b := fun _ hb =>
      List.rel_of_pairwise_cons hpair hb
    have hxs : xs.Pairwise r := hpair.of_cons
    have hrest := takeWhile_eq_filter_of_front p xs r hxs
      (fun a ha b hb hr hpb => hcond a (by simp [ha]) b (by simp [hb]) hr hpb)
    by_cases hpx : p x = true
    · constructor
      · rw [List.takeWhile_cons, if_pos hpx, List.filter_cons, if_pos hpx,
          hrest.1]
      · rw [List.dropWhile_cons, if_pos hpx, List.filter_cons,
          if_neg (by simp [hpx]), hrest.2]
    · have hallfalse : ∀ b ∈ xs, ¬ p b = true := fun b hb hpb =>
        hpx (hcond x (by simp) b (by simp [hb]) (hx b hb) hpb)
      have hpx' : p x = false := by
        cases h : p x
        · rfl
        · exact absurd h hpx
      have hxsall : ∀ b ∈ xs, (!p b) = true := fun b hb => by
        cases h : p b
        · simp
        · exact absurd h (hallfalse b hb)
      constructor
      · rw [List.takeWhile_cons, if_neg hpx, List.filter_cons, if_neg hpx,
          List.filter_eq_nil_iff.mpr hallfalse]
      · rw [List.dropWhile_cons, if_neg hpx, List.filter_cons,
          if_pos (by simp [hpx']), List.filter_eq_self.mpr hxsall]

/-- C5: for well-formed lines forming two visually distinct rows — every
intra-row `ymin` gap strictly below the tolerance, every inter-row gap
strictly above it, `xmin` distinct within each row — the reconstruction of
*any* permutation of the rows is the top row's texts left-to-right, a
newline, then the bottom row's texts left-to-right (the right-hand side does
not depend on the input order, which is the permutation invariance).
Tolerance comparisons are stated with denominators cleared:
`20·|Δ| ≷ 7·(2·median)` is `|Δ| ≷ 0.7·median`. -/
theorem claim_C5 (R1 R2 input : List Line)
    (hperm : input.Perm (R1 ++ R2))
    (hwf : ∀ l ∈ R1 ++ R2, WellFormed l)
    (hne1 : R1 ≠ []) (hne2 : R2 ≠ [])
    (hintra1 : ∀ a ∈ R1, ∀ b ∈ R1,
      20 * ((yKey a - yKey b).natAbs : Int) <
        7 * medianDoubled (lineHeights (R1 ++ R2)))
    (hintra2 : ∀ a ∈ R2, ∀ b ∈ R2,
      20 * ((yKey a - yKey b).natAbs : Int) <
        7 * medianDoubled (lineHeights (R1 ++ R2)))
    (hinter : ∀ a ∈ R1, ∀ b ∈ R2,
      20 * (yKey b - yKey a) > 7 * medianDoubled (lineHeights (R1 ++ R2)))
    (hx1 : R1.Pairwise fun a b => xKey a ≠ xKey b)
    (hx2 : R2.Pairwise fun a b => xKey a ≠ xKey b) :
    convertLinesToReadingOrder input = flushBand R1 ++ "\n" ++ flushBand R2 := by
  have hwf_in : ∀ l ∈ input, WellFormed l := fun l hl =>
    hwf l (hperm.subset hl)
  have hin_ne : input ≠ [] := by
    intro hnil
    apply hne1
    have := hperm.length_eq
    rw [hnil] at this
    simp at this
    exact List.eq_nil_of_length_eq_zero (by omega)
  have hheights_in : lineHeights input = input.map heightOf :=
    lineHeights_wf input hwf_in
  have hheights_r : lineHeights (R1 ++ R2) = (R1 ++ R2).map heightOf :=
    lineHeights_wf (R1 ++ R2) hwf
  have hm2eq : medianDoubled (lineHeights input) =
      medianDoubled (lineHeights (R1 ++ R2)) := by
    rw [hheights_in, hheights_r]
    exact medianDoubled_congr _ _ (hperm.map heightOf)
  have hm2pos : 0 < medianDoubled (lineHeights (R1 ++ R2)) := by
    rw [hheights_r]
    refine medianDoubled_pos _ (by simp [hne1]) ?_
    intro x hx
    obtain ⟨l, hl, rfl⟩ := List.mem_map.mp hx
    exact (hwf l hl).height_pos
  have hne_heights : ¬ (lineHeights input).isEmpty = true := by
    rw [hheights_in]
    simp [hin_ne]
  -- the y-sorted input splits into the two rows
  have hSperm : (List.insertionSort yRel input).Perm (R1 ++ R2) :=
    (List.perm_insertionSort yRel input).trans hperm
  have hSsorted : (List.insertionSort yRel input).Sorted yRel :=
    List.sorted_insertionSort yRel input
  have hdisj : ∀ b ∈ R2, b ∉ R1 := by
    intro b hb2 hb1
    have := hinter b hb1 b hb2
    omega
  have hfront' : ∀ a ∈ List.insertionSort yRel input,
      ∀ b ∈ List.insertionSort yRel input, yRel a b →
        decide (b ∈ R1) = true → decide (a ∈ R1) = true := by
    intro a ha b hb hr hpb
    have hb1 : b ∈ R1 := of_decide_eq_true hpb
    have ha12 : a ∈ R1 ++ R2 := hSperm.subset ha
    rcases List.mem_append.mp ha12 with ha1 | ha2
    · exact decide_eq_true ha1
    · exfalso
      have := hinter b hb1 a ha2
      have : yKey b < yKey a := by omega
      exact absurd hr (by simp [yRel]; omega)
  obtain ⟨htake, hdrop⟩ := takeWhile_eq_filter_of_front
    (fun l => decide (l ∈ R1)) (List.insertionSort yRel input) yRel hSsorted
    hfront'
  have hsplit : (List.insertionSort yRel input).takeWhile
        (fun l => decide (l ∈ R1)) ++
      (List.insertionSort yRel input).dropWhile (fun l => decide (l ∈ R1)) =
        List.insertionSort yRel input :=
    List.takeWhile_append_dropWhile _ _
  have hSA : ((List.insertionSort yRel input).takeWhile
      (fun l => decide (l ∈ R1))).Perm R1 := by
    rw [htake]
    have h1 : List.filter (fun l => decide (l ∈ R1)) (R1 ++ R2) = R1 := by
      rw [List.filter_append,
        List.filter_eq_self.mpr (fun a ha => decide_eq_true ha),
        List.filter_eq_nil_iff.mpr
          (fun b hb => by simpa using hdisj b hb)]
      simp
    have hp := hSperm.filter (fun l => decide (l ∈ R1))
    rw [h1] at hp
    exact hp
  have hSB : ((List.insertionSort yRel input).dropWhile
      (fun l => decide (l ∈ R1))).Perm R2 := by
    rw [hdrop]
    have h2 : List.filter (fun l => !decide (l ∈ R1)) (R1 ++ R2) = R2 := by
      rw [List.filter_append,
        List.filter_eq_nil_iff.mpr (fun a ha => by simpa using ha),
        List.filter_eq_self.mpr (fun b hb => by simpa using hdisj b hb)]
      simp
    have hp := hSperm.filter (fun l => !decide (l ∈ R1))
    rw [h2] at hp
    exact hp
  have hSAsorted : ((List.insertionSort yRel input).takeWhile
      (fun l => decide (l ∈ R1))).Sorted yRel :=
    List.Pairwise.sublist (List.takeWhile_sublist _) hSsorted
  have hSBsorted : ((List.insertionSort yRel input).dropWhile
      (fun l => decide (l ∈ R1))).Sorted yRel :=
    List.Pairwise.sublist (List.dropWhile_sublist _) hSsorted
  have hSAne : (List.insertionSort yRel input).takeWhile
      (fun l => decide (l ∈ R1)) ≠ [] := by
    intro hnil
    apply hne1
    have := hSA.length_eq
    rw [hnil] at this
    exact List.eq_nil_of_length_eq_zero (by simpa using this.symm)
  have hSBne : (List.insertionSort yRel input).dropWhile
      (fun l => decide (l ∈ R1)) ≠ [] := by
    intro hnil
    apply hne2
    have := hSB.length_eq
    rw [hnil] at this
    exact List.eq_nil_of_length_eq_zero (by simpa using this.symm)
  obtain ⟨a0, A, hAeq⟩ := List.exists_cons_of_ne_nil hSAne
  obtain ⟨b0, B, hBeq⟩ := List.exists_cons_of_ne_nil hSBne
  have hmemSA : ∀ x ∈ a0 :: A, x ∈ R1 := fun x hx =>
    hSA.subset (hAeq ▸ hx)
  have hmemSB : ∀ x ∈ b0 :: B, x ∈ R2 := fun x hx =>
    hSB.subset (hBeq ▸ hx)
  have hSAsorted' : (a0 :: A).Sorted yRel := hAeq ▸ hSAsorted
  have hSBsorted' : (b0 :: B).Sorted yRel := hBeq ▸ hSBsorted
  have hclust : clusterBands (medianDoubled (lineHeights (R1 ++ R2)))
      ((a0 :: A) ++ (b0 :: B)) = [a0 :: A, b0 :: B] := by
    apply clusterBands_two_rows
    · exact (hwf _ (List.mem_append.mpr (Or.inl (hmemSA a0 (by simp))))).length_ge_two
    · exact (hwf _ (List.mem_append.mpr (Or.inr (hmemSB b0 (by simp))))).length_ge_two
    · intro a ha
      refine ⟨(hwf _ (List.mem_append.mpr
        (Or.inl (hmemSA a (by simp [ha]))))).length_ge_two, ?_, ?_⟩
      · exact List.rel_of_pairwise_cons hSAsorted' ha
      · have hle : yKey a0 ≤ yKey a := List.rel_of_pairwise_cons hSAsorted' ha
        have := hintra1 a (hmemSA a (by simp [ha])) a0 (hmemSA a0 (by simp))
        rw [Int.natAbs_of_nonneg (by omega)] at this
        omega
    · constructor
      · have := hinter a0 (hmemSA a0 (by simp)) b0 (hmemSB b0 (by simp))
        omega
      · exact hinter a0 (hmemSA a0 (by simp)) b0 (hmemSB b0 (by simp))
    · intro b hb
      refine ⟨(hwf _ (List.mem_append.mpr
        (Or.inr (hmemSB b (by simp [hb]))))).length_ge_two, ?_, ?_⟩
      · exact List.rel_of_pairwise_cons hSBsorted' hb
      · have hle : yKey b0 ≤ yKey b := List.rel_of_pairwise_cons hSBsorted' hb
        have := hintra2 b (hmemSB b (by simp [hb])) b0 (hmemSB b0 (by simp))
        rw [Int.natAbs_of_nonneg (by omega)] at this
        omega
  have hSeq : List.insertionSort yRel input = (a0 :: A) ++ (b0 :: B) := by
    rw [← hsplit, hAeq, hBeq]
  have hflushA : flushBand (a0 :: A) = flushBand R1 := by
    unfold flushBand
    rw [insertionSortX_eq_of_perm (a0 :: A) R1 (hAeq ▸ hSA) hx1]
  have hflushB : flushBand (b0 :: B) = flushBand R2 := by
    unfold flushBand
    rw [insertionSortX_eq_of_perm (b0 :: B) R2 (hBeq ▸ hSB) hx2]
  simp only [convertLinesToReadingOrder]
  rw [if_neg (by simp [hin_ne]), if_neg hne_heights, hm2eq, hSeq, hclust]
  simp only [List.map_cons, List.map_nil, intercalate_pair, hflushA, hflushB]

/-- C5 witness: a two-line top row and a one-line bottom row, fed in a
scrambled order, reconstruct to the rows top-to-bottom with each row
left-to-right. -/
theorem claim_C5_witness :
    convertLinesToReadingOrder
        [⟨"b", [20, 2, 30, 12]⟩, ⟨"c", [0, 30, 10, 40]⟩,
          ⟨"a", [0, 0, 10, 10]⟩] = "a b\nc" := by
  have h := claim_C5
    [⟨"a", [0, 0, 10, 10]⟩, ⟨"b", [20, 2, 30, 12]⟩]
    [⟨"c", [0, 30, 10, 40]⟩]
    [⟨"b", [20, 2, 30, 12]⟩, ⟨"c", [0, 30, 10, 40]⟩, ⟨"a", [0, 0, 10, 10]⟩]
    (by decide) (by decide) (by decide) (by decide) (by decide) (by decide)
    (by decide) (by decide) (by decide)
  rw [h]
  rfl

/-- Values produced by `json.loads`: JSON values with integer numerals
(no float appears in any property under verification). `null` doubles as
Python `None`, which is exactly what `json.loads` returns for it. -/
inductive JValue where
  | null
  | bool (b : Bool)
  | num (n : Int)
  | str (s : String)
  | arr (items : List JValue)
  | obj (entries : List (String × JValue))
deriving Repr

/-- The single-quote character (codepoint 39) used by Python `repr`. -/
def pySQ : String := String.singleton (Char.ofNat 39)

mutual

/-- Python `repr` of a decoded JSON value (string escaping inside `repr` is
approximated by plain quoting; no claim evaluates `repr` on a string that
contains quotes). -/
def pyRepr : JValue → String
  | .null => "None"
  | .bool true => "True"
  | .bool false => "False"
  | .num n => toString n
  | .str s => pySQ ++ s ++ pySQ
  | .arr items => "[" ++ pyReprList items ++ "]"
  | .obj entries => "\x7b" ++ pyReprEntries entries ++ "\x7d"

def pyReprList : List JValue → String
  | [] => ""
  | [v] => pyRepr v
  | v :: vs => pyRepr v ++ ", " ++ pyReprList vs

def pyReprEntries : List (String × JValue) → String
  | [] => ""
  | [(k, v)] => pySQ ++ k ++ pySQ ++ ": " ++ pyRepr v
  | (k, v) :: kvs =>
    pySQ ++ k ++ pySQ ++ ": " ++ pyRepr v ++ ", " ++ pyReprEntries kvs

end

/-- Python `str` of a decoded JSON value: identity on strings, `None`,
`True`/`False`, decimal integers, `repr` for containers. -/
def pyStr : JValue → String
  | .null => "None"
  | .bool true => "True"
  | .bool false => "False"
  | .num n => toString n
  | .str s => s
  | .arr items => pyRepr (.arr items)
  | .obj entries => pyRepr (.obj entries)

/-- `d[k] = v` on a Python dict represented as its insertion-ordered
association list: an existing key keeps its position and gets the new value,
a new key is appended. -/
def pyInsert {α : Type} : List (String × α) → String → α → List (String × α)
  | [], k, v => [(k, v)]
  | (k0, v0) :: rest, k, v =>
    if k0 = k then (k0, v) :: rest else (k0, v0) :: pyInsert rest k v

/-- `d.get(k)` on a Python dict. -/
def pyLookup {α : Type} : List (String × α) → String → Option α
  | [], _ => none
  | (k0, v0) :: rest, k => if k0 = k then some v0 else pyLookup rest k

/-- Builds a Python dict from a sequence of key-value pairs processed left
to right (later values overwrite earlier ones) — both the semantics of
`json.loads` for objects and of a dict comprehension. -/
def pyDictOf {α : Type} (kvs : List (String × α)) : List (String × α) :=
  kvs.foldl (fun d kv => pyInsert d kv.1 kv.2) []

/-- `{k: g(k) for k in fields}`-style fold: every field is assigned. -/
def pyUpdateAll {α : Type} (g : String → α) (init : List (String × α))
    (fields : List String) : List (String × α) :=
  fields.foldl (fun d f => pyInsert d f (g f)) init

/-- A fold that assigns `d[f] = v` only when `g f = some v`, as the
extraction loop does. -/
def pyUpdateSome {α : Type} (g : String → Option α)
    (init : List (String × α)) (fields : List String) :
    List (String × α) :=
  fields.foldl (fun d f =>
    match g f with
    | some v => pyInsert d f v
    | none => d) init

/-- `{field: v0 for field in fields}`. -/
def pyFromKeys {α : Type} (ks : List String) (v0 : α) :
    List (String × α) :=
  pyUpdateAll (fun _ => v0) [] ks

theorem pyLookup_pyInsert {α : Type} (d : List (String × α)) (k : String)
    (v : α) (f : String) :
    pyLookup (pyInsert d k v) f = if k = f then some v else pyLookup d f := by
  induction d with
  | nil =>
    by_cases h : k = f <;> simp [pyInsert, pyLookup, h]
  | cons kv rest ih =>
    obtain ⟨k0, v0⟩ := kv
    by_cases h0 : k0 = k
    · subst h0
      by_cases h : k0 = f <;> simp [pyInsert, pyLookup, h]
    · by_cases h : k0 = f
      · subst h
        simp [pyInsert, pyLookup, h0, Ne.symm h0]
      · simp [pyInsert, pyLookup, h0, h, ih]

theorem pyLookup_pyUpdateAll {α : Type} (g : String → α)
    (init : List (String × α)) (fields : List String) (f : String) :
    pyLookup (pyUpdateAll g init fields) f =
      if f ∈ fields then some (g f) else pyLookup init f := by
  induction fields generalizing init with
  | nil => simp [pyUpdateAll]
  | cons x xs ih =>
    show pyLookup (pyUpdateAll g (pyInsert init x (g x)) xs) f = _
    rw [ih]
    by_cases hmem : f ∈ xs
    · simp [hmem]
    · by_cases hx : x = f
      · subst hx
        simp [hmem, pyLookup_pyInsert]
      · have hfx : ¬ f = x := fun h => hx h.symm
        simp [hmem, hx, hfx, pyLookup_pyInsert]

theorem pyLookup_pyUpdateSome_some {α : Type} (g : String → Option α)
    (init : List (String × α)) (fields : List String) (f : String) (v : α)
    (hgf : g f = some v) :
    pyLookup (pyUpdateSome g init fields) f =
      if f ∈ fields then some v else pyLookup init f := by
  induction fields generalizing init with
  | nil => simp [pyUpdateSome]
  | cons x xs ih =>
    show pyLookup (pyUpdateSome g
      (match g x with
        | some w => pyInsert init x w
        | none => init) xs) f = _
    rw [ih]
    by_cases hmem : f ∈ xs
    · simp [hmem]
    · by_cases hx : x = f
      · subst hx
        simp [hmem, hgf, pyLookup_pyInsert]
      · have hfx : ¬ f = x := fun h => hx h.symm
        cases hgx : g x <;>
          simp [hmem, hx, hfx, pyLookup_pyInsert]

theorem pyLookup_pyUpdateSome_none {α : Type} (g : String → Option α)
    (init : List (String × α)) (fields : List String) (f : String)
    (hgf : g f = none) :
    pyLookup (pyUpdateSome g init fields) f = pyLookup init f := by
  induction fields generalizing init with
  | nil => simp [pyUpdateSome]
  | cons x xs ih =>
    show pyLookup (pyUpdateSome g
      (match g x with
        | some w => pyInsert init x w
        | none => init) xs) f = _
    rw [ih]
    by_cases hx : x = f
    · subst hx
      simp [hgf]
    · cases hgx : g x <;> simp [pyLookup_pyInsert, hx]

theorem pyLookup_pyFromKeys {α : Type} (ks : List String) (v0 : α)
    (f : String) :
    pyLookup (pyFromKeys ks v0) f = if f ∈ ks then some v0 else none := by
  unfold pyFromKeys
  rw [pyLookup_pyUpdateAll]
  simp [pyLookup]

/-- Python `str.strip()`: drop leading and trailing whitespace (Python also
strips `\v`/`\f`, which no property here exercises). Implemented on the
character list so that proofs and witnesses evaluate by kernel reduction. -/
def pyStrip (s : String) : String :=
  String.mk (((s.toList.dropWhile Char.isWhitespace).reverse.dropWhile
    Char.isWhitespace).reverse)

/-- Python `str.lower()` (ASCII case mapping). -/
def pyLower (s : String) : String := String.mk (s.toList.map Char.toLower)

/-- Python `str.upper()` (ASCII case mapping). -/
def pyUpper (s : String) : String := String.mk (s.toList.map Char.toUpper)

/-- `field.lower().strip()` / `k.lower().strip()` — the key normalization
used by all three parsers. -/
def pyKeyNorm (s : String) : String := pyStrip (pyLower s)

/-- The JSON-block location of `parse_extraction`: the fenced
`re.search(r"```json\n(.*?)\n```", ...)` first, then the bare-object
`re.search(r"({\s*['\"]?.*?['\"]?\s*:[\s\S]*?})", ...)`. The two `re.search`
calls are Python library primitives, passed in as the functions that return
the matched group if any. -/
def extractionJsonMatch (fenced bare : String → Option String)
    (response : String) : Option String :=
  match fenced response with
  | some g => some g
  | none => bare response

/-- `{k.lower().strip(): v for k, v in data.items()}`. -/
def lowerValMap (items : List (String × JValue)) : List (String × JValue) :=
  items.foldl (fun d kv => pyInsert d (pyKeyNorm kv.1) kv.2) []

/-- The per-field resolution of the extraction loop: case-insensitive lookup
first, exact-case lookup in the original dict as fallback, otherwise leave
the field untouched (so it keeps its initial `null`). -/
def extractFieldValue (items dataLower : List (String × JValue))
    (field : String) : Option JValue :=
  match pyLookup dataLower (pyKeyNorm field) with
  | some v => some v
  | none => pyLookup items field

/-- `parse_extraction(response, fields)`
(src/utils/extractor_utils.py lines 95-123; src/extractor.py lines 7-62 is
the same logic). `json.loads` is the library primitive `jsonLoads`,
returning `none` on `JSONDecodeError`. -/
def parseExtraction (fenced bare : String → Option String)
    (jsonLoads : String → Option JValue) (response : String)
    (fields : List String) : List (String × JValue) :=
  match extractionJsonMatch fenced bare response with
  | some g =>
    match jsonLoads (pyStrip g) with
    | some (JValue.obj kvs) =>
      pyUpdateSome
        (extractFieldValue (pyDictOf kvs) (lowerValMap (pyDictOf kvs)))
        (pyFromKeys fields JValue.null) fields
    | some _ => pyFromKeys fields JValue.null
    | none => pyFromKeys fields JValue.null
  | none => pyFromKeys fields JValue.null

/-- C3: for every requested field list and every response — whatever the
regex searches and the JSON decoder return — `parse_extraction` yields a
mapping whose key set is exactly the requested fields: membership in the
result's keys is equivalent to membership in the field list, so nothing is
added and nothing is missing. Moreover a requested field that is absent
from the decoded JSON object — found by neither the case-insensitive lookup
nor the exact-case fallback — keeps its initial `null` value. -/
theorem claim_C3 (fenced bare : String → Option String)
    (jsonLoads : String → Option JValue) (response : String)
    (fields : List String) :
    (∀ f, (pyLookup (parseExtraction fenced bare jsonLoads response fields)
        f).isSome ↔ f ∈ fields) ∧
    (∀ f ∈ fields, ∀ (g : String) (kvs : List (String × JValue)),
      extractionJsonMatch fenced bare response = some g →
      jsonLoads (pyStrip g) = some (JValue.obj kvs) →
      pyLookup (lowerValMap (pyDictOf kvs)) (pyKeyNorm f) = none →
      pyLookup (pyDictOf kvs) f = none →
      pyLookup (parseExtraction fenced bare jsonLoads response fields) f =
        some JValue.null) := by
  constructor
  · intro f
    have hinit : (pyLookup (pyFromKeys fields JValue.null) f).isSome ↔
        f ∈ fields := by
      rw [pyLookup_pyFromKeys]
      by_cases h : f ∈ fields <;> simp [h]
    cases hm : extractionJsonMatch fenced bare response with
    | none => simp only [parseExtraction, hm]; exact hinit
    | some g =>
      cases hl : jsonLoads (pyStrip g) with
      | none => simp only [parseExtraction, hm, hl]; exact hinit
      | some v =>
        cases v with
        | obj kvs =>
          simp only [parseExtraction, hm, hl]
          cases hgf : extractFieldValue (pyDictOf kvs)
            (lowerValMap (pyDictOf kvs)) f with
          | some w =>
            rw [pyLookup_pyUpdateSome_some _ _ _ _ _ hgf,
              pyLookup_pyFromKeys]
            by_cases h : f ∈ fields <;> simp [h]
          | none =>
            rw [pyLookup_pyUpdateSome_none _ _ _ _ hgf]
            exact hinit
        | null => simp only [parseExtraction, hm, hl]; exact hinit
        | bool b => simp only [parseExtraction, hm, hl]; exact hinit
        | num n => simp only [parseExtraction, hm, hl]; exact hinit
        | str s => simp only [parseExtraction, hm, hl]; exact hinit
        | arr items => simp only [parseExtraction, hm, hl]; exact hinit
  · intro f hf g kvs hmatch hdec hlow hexact
    simp only [parseExtraction, hmatch, hdec]
    have hgf : extractFieldValue (pyDictOf kvs)
        (lowerValMap (pyDictOf kvs)) f = none := by
      simp only [extractFieldValue, hlow, hexact]
    rw [pyLookup_pyUpdateSome_none _ _ _ _ hgf, pyLookup_pyFromKeys,
      if_pos hf]

/-- C3 witness: requested fields `["A", "b"]` against a decoded object with
keys `b` and `Extra`: the key set of the result is exactly the requested
fields (`b` present, `zzz` not), and the absent field `A` maps to `null`
even though the object decoded successfully and carries an extra key. -/
theorem claim_C3_witness :
    pyLookup
        (parseExtraction (fun _ => some "J") (fun _ => none)
          (fun s =>
            if s = "J" then
              some (JValue.obj [("b", JValue.str "v"), ("Extra", JValue.num 1)])
            else none)
          "irrelevant" ["A", "b"]) "A" = some JValue.null ∧
    (pyLookup
        (parseExtraction (fun _ => some "J") (fun _ => none)
          (fun s =>
            if s = "J" then
              some (JValue.obj [("b", JValue.str "v"), ("Extra", JValue.num 1)])
            else none)
          "irrelevant" ["A", "b"]) "b").isSome ∧
    ¬ (pyLookup
        (parseExtraction (fun _ => some "J") (fun _ => none)
          (fun s =>
            if s = "J" then
              some (JValue.obj [("b", JValue.str "v"), ("Extra", JValue.num 1)])
            else none)
          "irrelevant" ["A", "b"]) "zzz").isSome := by
  have h := claim_C3 (fun _ => some "J") (fun _ => none)
    (fun s =>
      if s = "J" then
        some (JValue.obj [("b", JValue.str "v"), ("Extra", JValue.num 1)])
      else none)
    "irrelevant" ["A", "b"]
  refine ⟨?_, ?_, ?_⟩
  · exact h.2 "A" (by decide) "J"
      [("b", JValue.str "v"), ("Extra", JValue.num 1)] rfl rfl rfl rfl
  · exact (h.1 "b").mpr (by decide)
  · exact fun hs => absurd ((h.1 "zzz").mp hs) (by decide)

/-- C6: whenever a JSON substring is located but fails to decode
(`jsonLoads` returns `none` on the stripped match), every requested field is
mapped to `null` — the initial dict is returned unchanged, with no partial
recovery of values. -/
theorem claim_C6 (fenced bare : String → Option String)
    (jsonLoads : String → Option JValue) (response : String)
    (fields : List String) (g : String)
    (hmatch : extractionJsonMatch fenced bare response = some g)
    (hfail : jsonLoads (pyStrip g) = none) :
    ∀ f ∈ fields,
      pyLookup (parseExtraction fenced bare jsonLoads response fields) f =
        some JValue.null := by
  intro f hf
  simp only [parseExtraction, hmatch, hfail]
  rw [pyLookup_pyFromKeys, if_pos hf]

/-- C6 witness: a located block that is not valid JSON leaves both requested
fields `null`. -/
theorem claim_C6_witness :
    pyLookup
        (parseExtraction (fun _ => some "not json") (fun _ => none)
          (fun _ => none) "```json\nnot json\n```" ["A", "B"]) "A" =
      some JValue.null ∧
    pyLookup
        (parseExtraction (fun _ => some "not json") (fun _ => none)
          (fun _ => none) "```json\nnot json\n```" ["A", "B"]) "B" =
      some JValue.null :=
  ⟨claim_C6 (fun _ => some "not json") (fun _ => none) (fun _ => none)
      "```json\nnot json\n```" ["A", "B"] "not json" rfl rfl "A" (by decide),
    claim_C6 (fun _ => some "not json") (fun _ => none) (fun _ => none)
      "```json\nnot json\n```" ["A", "B"] "not json" rfl rfl "B" (by decide)⟩

/-- One review entry: `{"status": ..., "feedback": ...}`. -/
structure ReviewItemR where
  status : String
  feedback : String
deriving Repr, DecidableEq

/-- The opening-brace character (codepoint 123). -/
def lbrace : Char := Char.ofNat 123

/-- The closing-brace character (codepoint 125). -/
def rbrace : Char := Char.ofNat 125

/-- `s.find(c)` — index of the first occurrence, if any. -/
def strFindIdx (s : String) (c : Char) : Option Nat :=
  s.toList.findIdx? (· = c)

/-- `s.rfind(c)` — index of the last occurrence, if any. -/
def strFindLastIdx (s : String) (c : Char) : Option Nat :=
  match s.toList.reverse.findIdx? (· = c) with
  | some r => some (s.toList.length - 1 - r)
  | none => none

/-- `s[a:b]` for nonnegative bounds (empty when `b ≤ a`, truncated at the
end of the string). -/
def pySlice (s : String) (a b : Nat) : String :=
  String.mk ((s.toList.drop a).take (b - a))

/-- The JSON-block location of `parse_review`
(src/utils/reviewer_utils.py lines 140-148): the fenced regex first (a
library primitive, passed in), else the span from the first opening brace to
the last closing brace; the group is stripped. `none` models
`json_str = None`. -/
def reviewJsonStr (fenced : String → Option String) (response : String) :
    Option String :=
  match fenced response with
  | some g => some (pyStrip g)
  | none =>
    match strFindIdx response lbrace, strFindLastIdx response rbrace with
    | some i, some j => some (pyStrip (pySlice response i (j + 1)))
    | _, _ => none

/-- `{k.lower().strip(): (k, v) for k, v in data.items()}` — the review
parser keeps the original key alongside the value. -/
def lowerPairMap (items : List (String × JValue)) :
    List (String × (String × JValue)) :=
  items.foldl (fun d kv => pyInsert d (pyKeyNorm kv.1) kv) []

/-- The `review_item` resolution for one field: case-insensitive map first,
exact-case second; `JValue.null` stands for Python `None` (both the
initialized `review_item = None` and a JSON `null` value, which `json.loads`
returns as `None`). -/
def computeReviewItem (items : List (String × JValue))
    (lowerMap : List (String × (String × JValue))) (field : String) :
    JValue :=
  match pyLookup lowerMap (pyKeyNorm field) with
  | some kv => kv.2
  | none =>
    match pyLookup items field with
    | some v => v
    | none => JValue.null

/-- The per-field result of the review loop
(src/utils/reviewer_utils.py lines 155-171): a dict with a `status` key is
accepted when the upper-cased, stripped status is `PASS` or `FAIL`, coerced
to `FAIL` with an `Invalid status: ...` feedback otherwise; a dict without
`status` or a non-dict value is an invalid format; a missing field (or a
JSON `null`, which Python cannot tell apart from "missing") reports
`Field not found in review response`. -/
def reviewFieldResult (items : List (String × JValue))
    (lowerMap : List (String × (String × JValue))) (field : String) :
    ReviewItemR :=
  match computeReviewItem items lowerMap field with
  | JValue.obj ikvs =>
    match pyLookup (pyDictOf ikvs) "status" with
    | some sv =>
      if pyStrip (pyUpper (pyStr sv)) = "PASS" ∨
          pyStrip (pyUpper (pyStr sv)) = "FAIL" then
        ⟨pyStrip (pyUpper (pyStr sv)),
          pyStrip (pyStr ((pyLookup (pyDictOf ikvs) "feedback").getD
            (JValue.str "")))⟩
      else ⟨"FAIL", "Invalid status: " ++ pyStrip (pyUpper (pyStr sv))⟩
    | none => ⟨"ERROR", "Invalid review item format"⟩
  | JValue.null => ⟨"ERROR", "Field not found in review response"⟩
  | _ => ⟨"ERROR", "Invalid review item format"⟩

/-- `parse_review(response, fields)`
(src/utils/reviewer_utils.py lines 134-181). -/
def parseReview (fenced : String → Option String)
    (jsonLoads : String → Option JValue) (response : String)
    (fields : List String) : List (String × ReviewItemR) :=
  match reviewJsonStr fenced response with
  | some js =>
    if js = "" then pyFromKeys fields ⟨"ERROR", "Parsing failed"⟩
    else
      match jsonLoads js with
      | some (JValue.obj kvs) =>
        pyUpdateAll
          (reviewFieldResult (pyDictOf kvs) (lowerPairMap (pyDictOf kvs)))
          (pyFromKeys fields ⟨"ERROR", "Parsing failed"⟩) fields
      | some _ => pyFromKeys fields ⟨"ERROR", "Parsing failed"⟩
      | none => pyFromKeys fields ⟨"ERROR", "Parsing failed"⟩
  | none => pyFromKeys fields ⟨"ERROR", "Parsing failed"⟩

/-- When a JSON object is located and decoded, `parse_review` is the
initialized dict overwritten field by field with `reviewFieldResult`. -/
theorem parseReview_decoded (fenced : String → Option String)
    (jsonLoads : String → Option JValue) (response js : String)
    (fields : List String) (kvs : List (String × JValue))
    (hjs : reviewJsonStr fenced response = some js) (hne : js ≠ "")
    (hdec : jsonLoads js = some (JValue.obj kvs)) :
    parseReview fenced jsonLoads response fields =
      pyUpdateAll
        (reviewFieldResult (pyDictOf kvs) (lowerPairMap (pyDictOf kvs)))
        (pyFromKeys fields ⟨"ERROR", "Parsing failed"⟩) fields := by
  simp only [parseReview, hjs, hdec, if_neg hne]

/-- C7: once the review response decodes to a JSON object, (a) the result's
keys are exactly the requested fields; (b) a requested field absent under
both the case-insensitive and the exact-case lookup is mapped to
`{ERROR, "Field not found in review response"}`; (c) a requested field whose
resolved item is a dict with an accepted `PASS`/`FAIL` status keeps that
status and its stripped feedback. -/
theorem claim_C7 (fenced : String → Option String)
    (jsonLoads : String → Option JValue) (response js : String)
    (fields : List String) (kvs : List (String × JValue))
    (hjs : reviewJsonStr fenced response = some js) (hne : js ≠ "")
    (hdec : jsonLoads js = some (JValue.obj kvs)) :
    (∀ f, (pyLookup (parseReview fenced jsonLoads response fields) f).isSome
        ↔ f ∈ fields) ∧
    (∀ f ∈ fields,
      pyLookup (lowerPairMap (pyDictOf kvs)) (pyKeyNorm f) = none →
      pyLookup (pyDictOf kvs) f = none →
      pyLookup (parseReview fenced jsonLoads response fields) f =
        some ⟨"ERROR", "Field not found in review response"⟩) ∧
    (∀ f ∈ fields, ∀ (ikvs : List (String × JValue)) (sv : JValue),
      computeReviewItem (pyDictOf kvs) (lowerPairMap (pyDictOf kvs)) f =
        JValue.obj ikvs →
      pyLookup (pyDictOf ikvs) "status" = some sv →
      (pyStrip (pyUpper (pyStr sv)) = "PASS" ∨ pyStrip (pyUpper (pyStr sv)) = "FAIL") →
      pyLookup (parseReview fenced jsonLoads response fields) f =
        some ⟨pyStrip (pyUpper (pyStr sv)),
          pyStrip (pyStr ((pyLookup (pyDictOf ikvs) "feedback").getD
            (JValue.str "")))⟩) := by
  rw [parseReview_decoded fenced jsonLoads response js fields kvs hjs hne
    hdec]
  refine ⟨?_, ?_, ?_⟩
  · intro f
    rw [pyLookup_pyUpdateAll, pyLookup_pyFromKeys]
    by_cases h : f ∈ fields <;> simp [h]
  · intro f hf hlow hexact
    rw [pyLookup_pyUpdateAll, if_pos hf]
    have hitem : computeReviewItem (pyDictOf kvs)
        (lowerPairMap (pyDictOf kvs)) f = JValue.null := by
      simp only [computeReviewItem, hlow, hexact]
    simp only [reviewFieldResult, hitem]
  · intro f hf ikvs sv hitem hstatus hvalid
    rw [pyLookup_pyUpdateAll, if_pos hf]
    simp only [reviewFieldResult, hitem, hstatus, if_pos hvalid]

/-- C7 witness: requested fields `["A", "b"]` against a decoded object with
only key `b`: field `A` defaults to the not-found error, field `b` keeps its
parsed `PASS` status and feedback, and the key set is exactly the two
requested fields. -/
theorem claim_C7_witness :
    pyLookup
        (parseReview (fun _ => some "J")
          (fun s =>
            if s = "J" then
              some (JValue.obj
                [("b", JValue.obj
                  [("status", JValue.str "pass"),
                    ("feedback", JValue.str "ok")])])
            else none)
          "irrelevant" ["A", "b"]) "A" =
      some ⟨"ERROR", "Field not found in review response"⟩ ∧
    pyLookup
        (parseReview (fun _ => some "J")
          (fun s =>
            if s = "J" then
              some (JValue.obj
                [("b", JValue.obj
                  [("status", JValue.str "pass"),
                    ("feedback", JValue.str "ok")])])
            else none)
          "irrelevant" ["A", "b"]) "b" =
      some ⟨"PASS", "ok"⟩ ∧
    ¬ (pyLookup
        (parseReview (fun _ => some "J")
          (fun s =>
            if s = "J" then
              some (JValue.obj
                [("b", JValue.obj
                  [("status", JValue.str "pass"),
                    ("feedback", JValue.str "ok")])])
            else none)
          "irrelevant" ["A", "b"]) "zzz").isSome := by
  have h := claim_C7 (fun _ => some "J")
    (fun s =>
      if s = "J" then
        some (JValue.obj
          [("b", JValue.obj
            [("status", JValue.str "pass"), ("feedback", JValue.str "ok")])])
      else none)
    "irrelevant" "J" ["A", "b"]
    [("b", JValue.obj
      [("status", JValue.str "pass"), ("feedback", JValue.str "ok")])]
    rfl (by decide) rfl
  refine ⟨?_, ?_, ?_⟩
  · exact h.2.1 "A" (by decide) rfl rfl
  · exact h.2.2 "b" (by decide)
      [("status", JValue.str "pass"), ("feedback", JValue.str "ok")]
      (JValue.str "pass") rfl rfl (by decide)
  · exact fun hs => absurd ((h.1 "zzz").mp hs) (by decide)

/-- C8: once the review response decodes to a JSON object, a requested field
whose resolved item is a dict with a `status` key whose upper-cased,
stripped value is outside the accepted set (neither `PASS` nor `FAIL`) is
recorded as `FAIL` with the feedback `Invalid status: <value received>`. -/
theorem claim_C8 (fenced : String → Option String)
    (jsonLoads : String → Option JValue) (response js : String)
    (fields : List String) (kvs : List (String × JValue))
    (hjs : reviewJsonStr fenced response = some js) (hne : js ≠ "")
    (hdec : jsonLoads js = some (JValue.obj kvs)) :
    ∀ f ∈ fields, ∀ (ikvs : List (String × JValue)) (sv : JValue),
      computeReviewItem (pyDictOf kvs) (lowerPairMap (pyDictOf kvs)) f =
        JValue.obj ikvs →
      pyLookup (pyDictOf ikvs) "status" = some sv →
      ¬ (pyStrip (pyUpper (pyStr sv)) = "PASS" ∨
          pyStrip (pyUpper (pyStr sv)) = "FAIL") →
      pyLookup (parseReview fenced jsonLoads response fields) f =
        some ⟨"FAIL", "Invalid status: " ++ pyStrip (pyUpper (pyStr sv))⟩ := by
  intro f hf ikvs sv hitem hstatus hinvalid
  rw [parseReview_decoded fenced jsonLoads response js fields kvs hjs hne
    hdec, pyLookup_pyUpdateAll, if_pos hf]
  simp only [reviewFieldResult, hitem, hstatus, if_neg hinvalid]

/-- C8 witness: the typo status `"PASSED"` is coerced to `FAIL` with
feedback naming the invalid value. -/
theorem claim_C8_witness :
    pyLookup
        (parseReview (fun _ => some "J")
          (fun s =>
            if s = "J" then
              some (JValue.obj
                [("Invoice", JValue.obj
                  [("status", JValue.str "PASSED"),
                    ("feedback", JValue.str "Typo")])])
            else none)
          "irrelevant" ["Invoice"]) "Invoice" =
      some ⟨"FAIL", "Invalid status: PASSED"⟩ := by
  have h := claim_C8 (fun _ => some "J")
    (fun s =>
      if s = "J" then
        some (JValue.obj
          [("Invoice", JValue.obj
            [("status", JValue.str "PASSED"),
              ("feedback", JValue.str "Typo")])])
      else none)
    "irrelevant" "J" ["Invoice"]
    [("Invoice", JValue.obj
      [("status", JValue.str "PASSED"), ("feedback", JValue.str "Typo")])]
    rfl (by decide) rfl "Invoice" (by decide)
    [("status", JValue.str "PASSED"), ("feedback", JValue.str "Typo")]
    (JValue.str "PASSED") rfl rfl (by decide)
  rw [h]
  decide

/-- `{doc_type, fields}` — the classification result record. -/
structure ClassificationResult where
  docType : String
  fields : List String
deriving Repr, DecidableEq

/-- One element of a multimodal user-content list. -/
inductive ContentPart where
  | imageUrl (url : String)
  | textPart (s : String)
deriving Repr, DecidableEq

/-- A message content: a plain string or a multimodal part list. -/
inductive MsgContent where
  | plain (s : String)
  | parts (ps : List ContentPart)
deriving Repr, DecidableEq

/-- One role-tagged message of an LLM payload. -/
structure Message where
  role : String
  content : MsgContent
deriving Repr, DecidableEq

/-- The prompt of `classify_and_suggest_fields` when no user field list is
given (src/classifier.py lines 109-127; the string keeps the 8-space
indentation of the Python source literal). -/
def classifySuggestPrompt (text : String) : String :=
  "Analyze the following document text.\n" ++
  "        1. Classify the document type (e.g., Invoice, Bank Statement, Claim Form, Contract, Other).\n" ++
  "        2. Suggest key fields and table headers relevant for this document type.\n" ++
  "\n" ++
  "        IMPORTANT: Format your response ONLY as a single JSON object with keys \"doc_type\" (string) and \"fields\" (list of strings). Do not include any text before or after the JSON object.\n" ++
  "        Example JSON:\n" ++
  "        ```json\n" ++
  "        \x7b\n" ++
  "          \"doc_type\": \"invoice\",\n" ++
  "          \"fields\": [\"Invoice Number\", \"Invoice Date\", \"Vendor Name\", \"Total Amount\"]\n" ++
  "        \x7d\n" ++
  "        ```\n" ++
  "        If the document type is unclear or doesn\x27t fit common categories, use \"other\" for the doc_type. Make sure \x27fields\x27 is always a list, even if empty.\n" ++
  "\n" ++
  "        Document Text:\n" ++
  "        ---BEGIN TEXT---\n" ++
  "        " ++ text ++ "\n" ++
  "        ---END TEXT---\n" ++
  "        "

/-- `classify_and_suggest_fields(text, user_fields)`
(src/classifier.py lines 82-131). `llm` is the `llm_call` primitive and
`parse` is `parse_classification`, both taken as parameters; the claims hold
for every behaviour of these. A truthy (non-empty) `user_fields` makes the
function classify recursively without user fields — the classification-only
prompt it also builds in that branch is dead code (the `llm_call` on it is
commented out in the source) — and then return the user's fields unchanged
with the recursively obtained `doc_type`. -/
def classifyBase (llm : String → String)
    (parse : String → ClassificationResult) (text : String) :
    ClassificationResult :=
  parse (llm (classifySuggestPrompt text))

def classifyAndSuggestFields (llm : String → String)
    (parse : String → ClassificationResult) (text : String)
    (userFields : Option (List String)) : ClassificationResult :=
  match userFields with
  | some fs =>
    if fs.isEmpty then classifyBase llm parse text
    else
      -- the recursive `classify_and_suggest_fields(text)` call of line 103
      -- is the no-user-fields branch, i.e. `classifyBase`
      { docType := (classifyBase llm parse text).docType, fields := fs }
  | none => classifyBase llm parse text

/-- C9: whenever the caller supplies a non-empty explicit field list, the
stage returns exactly that list as `fields`, unchanged, while `doc_type` is
the one obtained by running the classification on the text without user
fields (the informational run) — for every behaviour of the model and of
the response parser. -/
theorem claim_C9 (llm : String → String)
    (parse : String → ClassificationResult) (text : String)
    (fs : List String) (hfs : fs ≠ []) :
    (classifyAndSuggestFields llm parse text (some fs)).fields = fs ∧
      (classifyAndSuggestFields llm parse text (some fs)).docType =
        (classifyAndSuggestFields llm parse text none).docType := by
  have hni : ¬ fs.isEmpty = true := by
    simpa [List.isEmpty_iff] using hfs
  simp [classifyAndSuggestFields, if_neg hni, hfs]

/-- C9 witness: with a concrete model, parser and text, the user's field
list `["Invoice #"]` is returned unchanged and the `doc_type` equals the one
of the informational classification run. -/
theorem claim_C9_witness :
    (classifyAndSuggestFields (fun _ => "resp")
        (fun _ => ⟨"invoice", ["X"]⟩) "doc" (some ["Invoice #"])).fields =
      ["Invoice #"] ∧
    (classifyAndSuggestFields (fun _ => "resp")
        (fun _ => ⟨"invoice", ["X"]⟩) "doc" (some ["Invoice #"])).docType =
      (classifyAndSuggestFields (fun _ => "resp")
        (fun _ => ⟨"invoice", ["X"]⟩) "doc" none).docType :=
  claim_C9 (fun _ => "resp") (fun _ => ⟨"invoice", ["X"]⟩) "doc"
    ["Invoice #"] (by decide)

/-- Python truthiness of an optional byte string (`None` and `b""` are
falsy). Image bytes are modelled as a list of byte values. -/
def bytesTruthy : Option (List Nat) → Bool
  | none => false
  | some bs => !bs.isEmpty

/-- `_image_bytes_to_base64_url(image_bytes)`
(src/utils/classifier_utils.py lines 17-29): `None` for falsy input,
otherwise the PIL decode plus base64 encoding — a library pipeline taken as
the parameter `pil`, returning `none` when the conversion fails. -/
def imageBytesToBase64Url (pil : List Nat → Option String)
    (bs : List Nat) : Option String :=
  if bs.isEmpty then none else pil bs

/-- The `json.dumps(..., indent=2)` example object of
`build_classification_prompt` (src/utils/classifier_utils.py lines 33-36). -/
def classificationExampleJson : String :=
  "\x7b\n  \"doc_type\": \"invoice\",\n  \"fields\": [\n    \"buyer_address\",\n    \"buyer_name\",\n    \"buyer_vat_number\",\n    \"currency\",\n    \"invoice_amount\",\n    \"invoice_date\",\n    \"invoice_number\",\n    \"payment_due_date\",\n    \"po_number\",\n    \"seller_address\",\n    \"seller_email\",\n    \"seller_fax_number\",\n    \"seller_name\",\n    \"seller_phone\",\n    \"seller_vat_number\",\n    \"seller_website\",\n    \"shipping_date\",\n    \"shipto_address\",\n    \"shipto_name\",\n    \"subtotal\",\n    \"total_due_amount\",\n    \"total_tax\"\n  ]\n\x7d"

/-- `build_classification_prompt(text)`
(src/utils/classifier_utils.py lines 31-52). The source takes `text` but
never interpolates it. -/
def buildClassificationPrompt (_text : String) : String :=
  pyStrip
    ("Analyze the provided document.\n1. Classify the document type (e.g., Invoice, Bank Statement, Claim Form, Contract, Other).\n2. Suggest key fields and table headers relevant for this document type.\n\n" ++
      "IMPORTANT: Format your response ONLY as a single JSON object with keys \"doc_type\" (string) and \"fields\" (list of strings). Do not include any text before or after the JSON object.\nExample JSON:\n```json\n" ++
      classificationExampleJson ++
      "\n```\nIf the document type is unclear or doesn\x27t fit common categories, use \"other\" for the doc_type. Make sure \x27fields\x27 is always a list, even if empty.\n")

/-- `create_classification_prompt_messages(text, image_bytes)`
(src/utils/classifier_utils.py lines 81-109): `None` when neither text nor
image is given; otherwise a single user message — multimodal when the image
converts, else text-only (or `None` when the image fails to convert and
there is no text). -/
def createClassificationPromptMessages (pil : List Nat → Option String)
    (text : String) (imageBytes : Option (List Nat)) :
    Option (List Message) :=
  if text = "" ∧ bytesTruthy imageBytes = false then none
  else if bytesTruthy imageBytes then
    match imageBytesToBase64Url pil (imageBytes.getD []) with
    | some url =>
      some [⟨"user", MsgContent.parts
        [ContentPart.imageUrl url,
          ContentPart.textPart (buildClassificationPrompt text)]⟩]
    | none =>
      if text = "" then none
      else some [⟨"user", MsgContent.plain (buildClassificationPrompt text)⟩]
  else
    if text = "" then none
    else some [⟨"user", MsgContent.plain (buildClassificationPrompt text)⟩]

/-- Modelled from the spec: the multimodal Classifier stage
`classify(text, image?) -> ClassificationResult` is missing from the
sources — `gradio_app.py` calls `classify_and_suggest_fields(text=...,
image_bytes=...)`, a signature no module under src/ defines; only its
prompt builder `create_classification_prompt_messages` (embedded above from
`classifier_utils.py`) and its parser are present. Per the spec (§4.3) the
stage requires at least one of text/image and returns
`{doc_type: "error", fields: []}` immediately, without a model call, when
neither is given — that is, exactly when no prompt messages can be built. -/
def classifyAndSuggestFieldsMM (pil : List Nat → Option String)
    (llm : List Message → String) (parse : String → ClassificationResult)
    (text : String) (imageBytes : Option (List Nat)) :
    ClassificationResult :=
  match createClassificationPromptMessages pil text imageBytes with
  | none => { docType := "error", fields := [] }
  | some msgs => parse (llm msgs)

/-- C2: for every call of the Classifier stage in which neither text nor an
image is supplied (empty text, and an image argument that is `None` or empty
bytes), the stage returns `{doc_type: "error", fields: []}` — and it does so
for *every* model, parser and image-conversion behaviour, which is the
formal counterpart of "no LLM call is performed". -/
theorem claim_C2 (pil : List Nat → Option String)
    (llm : List Message → String) (parse : String → ClassificationResult)
    (imageBytes : Option (List Nat))
    (himg : bytesTruthy imageBytes = false) :
    classifyAndSuggestFieldsMM pil llm parse "" imageBytes =
      { docType := "error", fields := [] } := by
  have hmsgs : createClassificationPromptMessages pil "" imageBytes =
      none := by
    unfold createClassificationPromptMessages
    rw [if_pos ⟨rfl, himg⟩]
  simp only [classifyAndSuggestFieldsMM, hmsgs]

/-- C2 witness: no text and no image yields the error result at a concrete
model, parser and image converter. -/
theorem claim_C2_witness :
    classifyAndSuggestFieldsMM (fun _ => none) (fun _ => "resp")
        (fun _ => ⟨"other", ["F"]⟩) "" none =
      { docType := "error", fields := [] } :=
  claim_C2 (fun _ => none) (fun _ => "resp") (fun _ => ⟨"other", ["F"]⟩)
    none rfl

end DocAI
